import Mathlib

/-!
Verification of the Markdown line reformatter (`fix_markdown.py`).

A document is a list of lines; each line is a list of characters, kept with
its trailing newline character, exactly as Python's `readlines` produces it.
The definitions below are a shallow embedding of `fix_markdown_file`:
  * `pass1go` / `emitFor` embed the main classification loop (lines 9-53),
  * `collapseGo` embeds the blank-line collapsing pass (lines 56-65),
  * `subScanF` / `tryMatch` embed the regex substitution
    `re.sub(r'(\s|^)(https?://[^\s\]]+)(\s|$)', r'\1<\2>\3', line)`,
  * `fixMarkdownFile` embeds the read-then-write shell, with the file
    system modelled as a partial map from paths to line sequences.
-/

/-- A line of the document: its characters, including the trailing newline. -/
abbrev Line := List Char

/-- The backtick character, `'\x60'`. -/
def btick : Char := Char.ofNat 96

/-- Python `str.isspace` on the ASCII whitespace characters: space, tab,
newline, carriage return, vertical tab (11), form feed (12).  These are the
characters `str.strip()` removes and `\s` matches on the inputs at hand. -/
def pyIsSpace (c : Char) : Bool :=
  c == ' ' || c == '\t' || c == '\n' || c == '\r' ||
  c == Char.ofNat 11 || c == Char.ofNat 12

/-- Python `line.strip()`: drop whitespace from both ends. -/
def pyStrip (l : Line) : Line :=
  ((l.dropWhile pyIsSpace).reverse.dropWhile pyIsSpace).reverse

/-- Python `line.strip() == ''`. -/
def isBlank (l : Line) : Bool :=
  (pyStrip l).isEmpty

/-- The line `'\n'` appended as a blank separator by the source. -/
def blankLine : Line := ['\n']

/-- The triple-backtick fence marker. -/
def fenceMarker : Line := [btick, btick, btick]

/-- Python `line.startswith('#')` (source line 15). -/
def isHeading (l : Line) : Bool :=
  ['#'].isPrefixOf l

/-- Python `line.strip().startswith('-')` (source line 27). -/
def isListLine (l : Line) : Bool :=
  ['-'].isPrefixOf (pyStrip l)

/-- Python `line.strip().startswith('```')` (source line 34). -/
def isFenceLine (l : Line) : Bool :=
  fenceMarker.isPrefixOf (pyStrip l)

/-- Python `line.count('```')`: number of non-overlapping occurrences of the
triple-backtick marker, scanning left to right (source line 40). -/
def countMarker : Line → Nat
  | c1 :: c2 :: c3 :: rest =>
    if c1 = btick ∧ c2 = btick ∧ c3 = btick then countMarker rest + 1
    else countMarker (c2 :: c3 :: rest)
  | _ => 0

/-- Python substring test `pat in line`. -/
def containsSeq (pat : Line) : Line → Bool
  | [] => pat.isEmpty
  | c :: rest => pat.isPrefixOf (c :: rest) || containsSeq pat rest

/-- The characters of `http://`. -/
def schemeHttp : Line := ['h', 't', 't', 'p', ':', '/', '/']

/-- The characters of `https://`. -/
def schemeHttps : Line := ['h', 't', 't', 'p', 's', ':', '/', '/']

/-- Python `'http://' in line or 'https://' in line` (source line 45). -/
def hasURL (l : Line) : Bool :=
  containsSeq schemeHttp l || containsSeq schemeHttps l

/-- The regex fragment `https?://` matched at the head of a suffix: returns
the matched scheme characters and the remaining characters.  The optional
`s` is greedy; when `https://` is not present, backtracking retries with
`http://`, which is what the second test expresses. -/
def urlScheme (l : Line) : Option (Line × Line) :=
  if schemeHttps.isPrefixOf l then some (schemeHttps, l.drop 8)
  else if schemeHttp.isPrefixOf l then some (schemeHttp, l.drop 7)
  else none

/-- The regex character class `[^\s\]]`. -/
def urlClass (c : Char) : Bool :=
  !pyIsSpace c && !(c == ']')

/-- Attempt groups 2 and 3 of the regex after group 1 matched `g1`: the
scheme, then the maximal (greedy) nonempty run of `urlClass` characters,
then `(\s|$)`.  Returns the replacement text `\1<\2>\3` for the matched
span together with the unconsumed remainder.  No shorter run of group 2
can succeed when the maximal one fails, because every character of the run
satisfies `urlClass` and hence fails `(\s|$)`, so greedy matching without
backtracking is faithful here. -/
def tryAt (g1 rest1 : Line) : Option (Line × Line) :=
  match urlScheme rest1 with
  | none => none
  | some (sch, r2) =>
    if (r2.takeWhile urlClass).isEmpty then none
    else
      match r2.drop (r2.takeWhile urlClass).length with
      | [] => some (g1 ++ '<' :: (sch ++ r2.takeWhile urlClass) ++ ['>'], [])
      | c :: r4 =>
        if pyIsSpace c then
          some (g1 ++ '<' :: (sch ++ r2.takeWhile urlClass) ++ ['>', c], r4)
        else none

/-- Attempt the whole regex at the current scan position.  Group `(\s|^)`
matches a single whitespace character, or the empty string when the scan
position is the start of the line (`atStart`; Python `re` without
`MULTILINE` anchors `^` to position 0 only).  When the first character is
whitespace the `\s` alternative is tried first; the `^` alternative can
never rescue a failure in that case since the scheme starts with a
non-whitespace character. -/
def tryMatch (atStart : Bool) (l : Line) : Option (Line × Line) :=
  match l with
  | [] => none
  | c :: rest =>
    if pyIsSpace c then tryAt [c] rest
    else if atStart then tryAt [] (c :: rest)
    else none

/-- The left-to-right scan of `re.sub`: at each position try the pattern;
on a match emit the replacement and resume after the match, otherwise copy
one character and advance.  `fuel` bounds the number of scan steps; since
every step consumes at least one character, `l.length` steps always
suffice (see `urlSub`). -/
def subScanF : Nat → Bool → Line → Line
  | 0, _, l => l
  | _ + 1, _, [] => []
  | fuel + 1, atStart, c :: rest =>
    match tryMatch atStart (c :: rest) with
    | some (out, rem) => out ++ subScanF fuel false rem
    | none => c :: subScanF fuel false rest

/-- Python `re.sub(r'(\s|^)(https?://[^\s\]]+)(\s|$)', r'\1<\2>\3', line)`
(source line 47). -/
def urlSub (l : Line) : Line :=
  subScanF l.length true l

/-- `fixed_lines and fixed_lines[-1].strip() != ''` (source lines 17, 36):
the buffer is non-empty and its last line is not blank. -/
def prevNB : Option Line → Bool
  | none => false
  | some p => !isBlank p

/-- `fixed_lines[-1] if fixed_lines else ''` (source line 28). -/
def prevOf : Option Line → Line
  | none => []
  | some p => p

/-- The body of the main loop (source lines 12-51): the lines appended to
the output buffer for one input line, given whether this is the first line
(`i > 0` is `!first`), the current last line of the buffer, and the next
input line `lines[i+1]` when it exists. -/
def emitFor (first : Bool) (prevOpt : Option Line) (line : Line)
    (nextOpt : Option Line) : List Line :=
  if isHeading line then
    (if !first && prevNB prevOpt then [blankLine] else [])
    ++ [line]
    ++ (match nextOpt with
        | some nxt => if !isBlank nxt && !isHeading nxt then [blankLine] else []
        | none => [])
  else if isListLine line && !first then
    (if !isBlank (prevOf prevOpt)
        && !(['-'].isPrefixOf (pyStrip (prevOf prevOpt))) then [blankLine]
     else [])
    ++ [line]
  else if isFenceLine line then
    (if !first && prevNB prevOpt then [blankLine] else [])
    ++ [line]
    ++ (if countMarker line % 2 == 0 then
          match nextOpt with
          | some nxt => if !isBlank nxt then [blankLine] else []
          | none => []
        else [])
  else if hasURL line then [urlSub line]
  else [line]

/-- The main loop (source lines 10-53), accumulating the output buffer. -/
def pass1go (first : Bool) (acc : List Line) : List Line → List Line
  | [] => acc
  | line :: rest => pass1go false (acc ++ emitFor first acc.getLast? line rest.head?) rest

/-- Pass 1 of the reformatter: classification and blank-line insertion. -/
def pass1 (lines : List Line) : List Line :=
  pass1go true [] lines

/-- The blank-collapsing loop (source lines 56-65), with `prevBlank` the
`prev_blank` flag. -/
def collapseGo (prevBlank : Bool) : List Line → List Line
  | [] => []
  | line :: rest =>
    if isBlank line then
      (if prevBlank then [] else [line]) ++ collapseGo true rest
    else line :: collapseGo false rest

/-- Pass 2 of the reformatter: collapse runs of blank lines to one. -/
def pass2 (ls : List Line) : List Line :=
  collapseGo false ls

/-- The whole in-memory transformation of `fix_markdown_file`. -/
def fixMarkdown (lines : List Line) : List Line :=
  pass2 (pass1 lines)

/-- The content line the loop appends for one input line: the line itself
in every branch except the bare-URL branch, which appends the rewritten
line.  This mirrors the branch structure of `emitFor` with the blank-line
insertions stripped away, and is used to state content preservation. -/
def contentOut (first : Bool) (line : Line) : Line :=
  if isHeading line then line
  else if isListLine line && !first then line
  else if isFenceLine line then line
  else if hasURL line then urlSub line
  else line

/-- `contentOut` applied across a document (the first line with
`first = true`). -/
def contentMapGo (first : Bool) : List Line → List Line
  | [] => []
  | line :: rest => contentOut first line :: contentMapGo false rest

/-- The per-line content transform of the whole document. -/
def contentMap (lines : List Line) : List Line :=
  contentMapGo true lines

/-- The non-blank lines of a document, in order. -/
def nonBlankLines (ls : List Line) : List Line :=
  ls.filter (fun l => !isBlank l)

/-- The file system, modelled as a partial map from paths to the line
sequences of the files that exist. -/
def FileSys : Type := Line → Option (List Line)

/-- `fix_markdown_file` with its I/O (source lines 5-7 and 67-68): the read
(`open(filepath, 'r')`) raises not-found when the path is absent, in which
case nothing is written and the map is unchanged; otherwise the file is
overwritten with the reformatted lines only after both passes finished. -/
def fixMarkdownFile (fs : FileSys) (path : Line) : Except Unit FileSys :=
  match fs path with
  | none => Except.error ()
  | some ls =>
      Except.ok (fun p => if p = path then some (fixMarkdown ls) else fs p)

/-- A position where the regex can anchor group 1: the scheme at the scan
start (when the scan starts at position 0), or the scheme immediately after
a whitespace character.  `wrapSite a l = false` says no URL occurrence in
`l` is preceded by whitespace (or starts the line, when `a` is true). -/
def wrapSite (atStart : Bool) : Line → Bool
  | [] => false
  | c :: rest =>
    (atStart && (urlScheme (c :: rest)).isSome)
    || (pyIsSpace c && (urlScheme rest).isSome)
    || wrapSite false rest

/-- The line `"Text\n"`. -/
def textLine : Line := ['T', 'e', 'x', 't', '\n']

/-- The line `"code\n"`. -/
def codeLine : Line := ['c', 'o', 'd', 'e', '\n']

/-- The line `"More\n"`. -/
def moreLine : Line := ['M', 'o', 'r', 'e', '\n']

/-- The line made of a single triple-backtick fence marker and a newline. -/
def tickLine : Line := [btick, btick, btick, '\n']

/-- The line `"# A\n"`. -/
def headALine : Line := ['#', ' ', 'A', '\n']

/-- The line `"# B\n"`. -/
def headBLine : Line := ['#', ' ', 'B', '\n']

/-- The line `"- item1\n"`. -/
def item1Line : Line := ['-', ' ', 'i', 't', 'e', 'm', '1', '\n']

/-- The line `"- item2\n"`. -/
def item2Line : Line := ['-', ' ', 'i', 't', 'e', 'm', '2', '\n']

/-- The line `"See https://example.com for details.\n"`. -/
def seeInLine : Line := ['S', 'e', 'e', ' ', 'h', 't', 't', 'p', 's', ':', '/', '/', 'e', 'x', 'a', 'm', 'p', 'l', 'e', '.', 'c', 'o', 'm', ' ', 'f', 'o', 'r', ' ', 'd', 'e', 't', 'a', 'i', 'l', 's', '.', '\n']

/-- The line `"See <https://example.com> for details.\n"`. -/
def seeOutLine : Line := ['S', 'e', 'e', ' ', '<', 'h', 't', 't', 'p', 's', ':', '/', '/', 'e', 'x', 'a', 'm', 'p', 'l', 'e', '.', 'c', 'o', 'm', '>', ' ', 'f', 'o', 'r', ' ', 'd', 'e', 't', 'a', 'i', 'l', 's', '.', '\n']

/-- The line `"x https://a.com https://b.com] y\n"`: two URL tokens, the
first bounded by whitespace on both sides, the second preceded by the same
whitespace that terminates the first and followed by a literal `]`. -/
def twoUrlInLine : Line := ['x', ' ', 'h', 't', 't', 'p', 's', ':', '/', '/', 'a', '.', 'c', 'o', 'm', ' ', 'h', 't', 't', 'p', 's', ':', '/', '/', 'b', '.', 'c', 'o', 'm', ']', ' ', 'y', '\n']

/-- The line `"x <https://a.com> <https://b.com>] y\n"`: both URL tokens
wrapped, which is what claim C4 predicts for `twoUrlInLine`. -/
def twoUrlClaimLine : Line := ['x', ' ', '<', 'h', 't', 't', 'p', 's', ':', '/', '/', 'a', '.', 'c', 'o', 'm', '>', ' ', '<', 'h', 't', 't', 'p', 's', ':', '/', '/', 'b', '.', 'c', 'o', 'm', '>', ']', ' ', 'y', '\n']

/-- The line `"x <https://a.com> https://b.com] y\n"`: only the first URL
token wrapped, which is what the code produces for `twoUrlInLine`. -/
def twoUrlActualLine : Line := ['x', ' ', '<', 'h', 't', 't', 'p', 's', ':', '/', '/', 'a', '.', 'c', 'o', 'm', '>', ' ', 'h', 't', 't', 'p', 's', ':', '/', '/', 'b', '.', 'c', 'o', 'm', ']', ' ', 'y', '\n']

/-- The line `"[text](https://example.com)\n"` (Markdown link syntax). -/
def linkLine : Line := ['[', 't', 'e', 'x', 't', ']', '(', 'h', 't', 't', 'p', 's', ':', '/', '/', 'e', 'x', 'a', 'm', 'p', 'l', 'e', '.', 'c', 'o', 'm', ')', '\n']

/-- The host characters `example.com`, used as a concrete URL body. -/
def exBody : Line := ['e', 'x', 'a', 'm', 'p', 'l', 'e', '.', 'c', 'o', 'm']

/-- The line `"# See https://example.com\n"`: a heading that contains a URL. -/
def headUrlLine : Line := ['#', ' ', 'S', 'e', 'e', ' ', 'h', 't', 't', 'p', 's', ':', '/', '/', 'e', 'x', 'a', 'm', 'p', 'l', 'e', '.', 'c', 'o', 'm', '\n']

/-- The file system with no files. -/
def emptyFS : FileSys := fun _ => none

/-! ### Basic lemmas about blankness and scanning -/

theorem subScanF_nil (fuel : Nat) (a : Bool) : subScanF fuel a [] = [] := by
  cases fuel <;> rfl

theorem forall_dropWhile_iff (p : Char → Bool) (l : Line) :
    (∀ c ∈ l.dropWhile p, p c = true) ↔ ∀ c ∈ l, p c = true := by
  constructor
  · intro h c hc
    rw [← List.takeWhile_append_dropWhile p l] at hc
    rcases List.mem_append.mp hc with h1 | h2
    · exact List.mem_takeWhile_imp h1
    · exact h c h2
  · intro h c hc
    exact h c ((List.dropWhile_sublist p).subset hc)

theorem pyStrip_eq_nil_iff (l : Line) :
    pyStrip l = [] ↔ ∀ c ∈ l, pyIsSpace c = true := by
  unfold pyStrip
  rw [List.reverse_eq_nil_iff, List.dropWhile_eq_nil_iff]
  constructor
  · intro h c hc
    exact (forall_dropWhile_iff pyIsSpace l).mp
      (fun d hd => h d (List.mem_reverse.mpr hd)) c hc
  · intro h c hc
    exact h c ((List.dropWhile_sublist pyIsSpace).subset (List.mem_reverse.mp hc))

theorem isBlank_eq_all (l : Line) : isBlank l = l.all pyIsSpace := by
  have h1 : isBlank l = true ↔ l.all pyIsSpace = true := by
    rw [isBlank, List.isEmpty_iff, pyStrip_eq_nil_iff, List.all_eq_true]
  cases hb : l.all pyIsSpace
  · cases h2 : isBlank l
    · rfl
    · rw [hb] at h1
      exact absurd (h1.mp h2) (by simp)
  · exact h1.mpr hb

theorem isBlank_cons (c : Char) (l : Line) :
    isBlank (c :: l) = (pyIsSpace c && isBlank l) := by
  simp [isBlank_eq_all]

theorem isBlank_blankLine : isBlank blankLine = true := by decide

theorem isPrefixOf_append_self (p t : List Char) : p.isPrefixOf (p ++ t) = true :=
  List.isPrefixOf_iff_prefix.mpr (List.prefix_append p t)

theorem takeWhile_append_sat {p : Char → Bool} {y : Char} (xs ys : List Char)
    (hxs : ∀ c ∈ xs, p c = true) (hy : p y = false) :
    (xs ++ y :: ys).takeWhile p = xs := by
  induction xs with
  | nil => simp [List.takeWhile_cons, hy]
  | cons x xs ih =>
    have hx : p x = true := hxs x (by simp)
    simp only [List.cons_append, List.takeWhile_cons, hx, if_true]
    rw [ih (fun c hc => hxs c (by simp [hc]))]

/-! ### Structure of successful and failed regex matches -/

theorem urlScheme_eq {l sch r2 : Line} (h : urlScheme l = some (sch, r2)) :
    l = sch ++ r2 ∧ (sch = schemeHttp ∨ sch = schemeHttps) := by
  unfold urlScheme at h
  split at h
  · rename_i hp
    obtain ⟨t, ht⟩ := List.isPrefixOf_iff_prefix.mp hp
    injection h with h1
    cases h1
    subst ht
    refine ⟨?_, Or.inr rfl⟩
    simp [schemeHttps]
  · split at h
    · rename_i hp
      obtain ⟨t, ht⟩ := List.isPrefixOf_iff_prefix.mp hp
      injection h with h1
      cases h1
      subst ht
      refine ⟨?_, Or.inl rfl⟩
      simp [schemeHttp]
    · exact absurd h (by simp)

theorem tryAt_none_of_scheme {g1 r1 : Line} (h : urlScheme r1 = none) :
    tryAt g1 r1 = none := by
  unfold tryAt
  rw [h]

theorem tryAt_some_mem {g1 r1 out rem : Line} (h : tryAt g1 r1 = some (out, rem)) :
    '<' ∈ out ∧ 'h' ∈ r1 := by
  unfold tryAt at h
  cases heq : urlScheme r1 with
  | none => rw [heq] at h; simp at h
  | some pr =>
    obtain ⟨sch, r2⟩ := pr
    rw [heq] at h
    dsimp only at h
    have hr1 := urlScheme_eq heq
    have hh : 'h' ∈ r1 := by
      rcases hr1.2 with h2 | h2 <;>
        (subst h2; rw [hr1.1]; simp [schemeHttp, schemeHttps])
    refine ⟨?_, hh⟩
    by_cases he : (List.takeWhile urlClass r2).isEmpty = true
    · simp [he] at h
    · rw [if_neg he] at h
      cases hd : List.drop (List.takeWhile urlClass r2).length r2 with
      | nil =>
        rw [hd] at h
        injection h with h1
        cases h1
        simp
      | cons c r4 =>
        rw [hd] at h
        dsimp only at h
        by_cases hc : pyIsSpace c = true
        · rw [if_pos hc] at h
          injection h with h1
          cases h1
          simp
        · rw [if_neg hc] at h
          simp at h

theorem tryMatch_some_mem {a : Bool} {l out rem : Line}
    (h : tryMatch a l = some (out, rem)) : '<' ∈ out ∧ 'h' ∈ l := by
  cases l with
  | nil => simp [tryMatch] at h
  | cons c rest =>
    simp only [tryMatch] at h
    by_cases hc : pyIsSpace c = true
    · rw [if_pos hc] at h
      obtain ⟨h1, h2⟩ := tryAt_some_mem h
      exact ⟨h1, List.mem_cons_of_mem c h2⟩
    · rw [if_neg hc] at h
      by_cases ha : a = true
      · rw [if_pos ha] at h
        exact tryAt_some_mem h
      · rw [if_neg ha] at h
        simp at h

theorem subScanF_isBlank (l : Line) : ∀ (fuel : Nat) (a : Bool),
    isBlank (subScanF fuel a l) = isBlank l := by
  induction l with
  | nil => intro fuel a; rw [subScanF_nil]
  | cons c rest ih =>
    intro fuel a
    cases fuel with
    | zero => rfl
    | succ f =>
      cases h : tryMatch a (c :: rest) with
      | none =>
        simp only [subScanF, h]
        rw [isBlank_cons, isBlank_cons, ih f false]
      | some pr =>
        obtain ⟨out, rem⟩ := pr
        obtain ⟨hlt, hh⟩ := tryMatch_some_mem h
        simp only [subScanF, h]
        have hout : out.all pyIsSpace = false := by
          cases hall : out.all pyIsSpace
          · rfl
          · exact absurd (List.all_eq_true.mp hall '<' hlt) (by decide)
        have hl : (c :: rest).all pyIsSpace = false := by
          cases hall : (c :: rest).all pyIsSpace
          · rfl
          · exact absurd (List.all_eq_true.mp hall 'h' hh) (by decide)
        rw [isBlank_eq_all, isBlank_eq_all, List.all_append, hout, hl]
        rfl

theorem isBlank_urlSub (l : Line) : isBlank (urlSub l) = isBlank l := by
  unfold urlSub
  rw [subScanF_isBlank]

theorem isBlank_contentOut (first : Bool) (l : Line) :
    isBlank (contentOut first l) = isBlank l := by
  unfold contentOut
  split_ifs <;> first | rfl | exact isBlank_urlSub l

/-! ### Non-blank content through the two passes -/

theorem nonBlankLines_append (xs ys : List Line) :
    nonBlankLines (xs ++ ys) = nonBlankLines xs ++ nonBlankLines ys :=
  List.filter_append xs ys

theorem filter_blank_opt (C : Prop) [Decidable C] :
    List.filter (fun l => !isBlank l) (if C then [blankLine] else []) = [] := by
  split_ifs <;> simp [isBlank_blankLine]

theorem nonBlank_emitFor (first : Bool) (p : Option Line) (line : Line)
    (n : Option Line) :
    nonBlankLines (emitFor first p line n) = nonBlankLines [contentOut first line] := by
  unfold emitFor contentOut
  rcases n with _ | nxt <;>
    split_ifs <;>
      simp [nonBlankLines, List.filter_append, List.filter, isBlank_blankLine,
        filter_blank_opt]

theorem nonBlank_pass1go (rest : List Line) : ∀ (first : Bool) (acc : List Line),
    nonBlankLines (pass1go first acc rest)
      = nonBlankLines acc ++ nonBlankLines (contentMapGo first rest) := by
  induction rest with
  | nil =>
    intro first acc
    simp [pass1go, contentMapGo, nonBlankLines]
  | cons line rest ih =>
    intro first acc
    rw [pass1go, contentMapGo, ih]
    rw [nonBlankLines_append, nonBlank_emitFor]
    rw [show contentOut first line :: contentMapGo false rest
          = [contentOut first line] ++ contentMapGo false rest from rfl,
      nonBlankLines_append, List.append_assoc]

theorem nonBlank_collapseGo (ls : List Line) : ∀ (b : Bool),
    nonBlankLines (collapseGo b ls) = nonBlankLines ls := by
  induction ls with
  | nil => intro b; rfl
  | cons l rest ih =>
    intro b
    rw [collapseGo]
    by_cases hb : isBlank l
    · rw [if_pos hb, nonBlankLines_append]
      have h1 : nonBlankLines (if b = true then [] else [l]) = [] := by
        split_ifs <;> simp [nonBlankLines, List.filter, hb]
      rw [h1, List.nil_append, ih true]
      unfold nonBlankLines
      simp [List.filter_cons, hb]
    · rw [if_neg hb]
      have h2 := ih false
      unfold nonBlankLines at h2 ⊢
      simp [List.filter_cons, hb, h2]

theorem nonBlank_fixMarkdown (lines : List Line) :
    nonBlankLines (fixMarkdown lines) = nonBlankLines (contentMap lines) := by
  unfold fixMarkdown pass2 pass1 contentMap
  rw [nonBlank_collapseGo, nonBlank_pass1go]
  rfl

theorem length_nonBlank_contentMapGo (lines : List Line) : ∀ (first : Bool),
    (nonBlankLines (contentMapGo first lines)).length
      = (nonBlankLines lines).length := by
  induction lines with
  | nil => intro first; rfl
  | cons l rest ih =>
    intro first
    rw [contentMapGo]
    have h := ih false
    unfold nonBlankLines at h ⊢
    by_cases hb : isBlank l <;>
      simp [List.filter_cons, hb, isBlank_contentOut, h]

theorem collapseGo_idem (ls : List Line) : ∀ (b : Bool),
    collapseGo b (collapseGo b ls) = collapseGo b ls := by
  induction ls with
  | nil => intro b; rfl
  | cons l rest ih =>
    intro b
    by_cases hb : isBlank l
    · cases b
      · rw [collapseGo, if_pos hb]
        simp only [Bool.false_eq_true, if_false, List.singleton_append]
        rw [collapseGo, if_pos hb]
        simp only [Bool.false_eq_true, if_false, List.singleton_append]
        rw [ih true]
      · rw [collapseGo, if_pos hb]
        simp only [if_true]
        rw [List.nil_append, ih true]
    · rw [collapseGo, if_neg hb]
      rw [collapseGo, if_neg hb, ih false]

/-! ### Lines with no wrappable URL are left unchanged by the substitution -/

theorem subScanF_cons (fuel : Nat) (a : Bool) (c : Char) (rest : Line) :
    subScanF (fuel + 1) a (c :: rest)
      = match tryMatch a (c :: rest) with
        | some (out, rem) => out ++ subScanF fuel false rem
        | none => c :: subScanF fuel false rest := rfl

theorem urlScheme_none_of_isSome_false {l : Line}
    (h : (urlScheme l).isSome = false) : urlScheme l = none := by
  cases hu : urlScheme l
  · rfl
  · rw [hu] at h
    simp at h

theorem tryMatch_none_of_no_site (a : Bool) (c : Char) (rest : Line)
    (h : wrapSite a (c :: rest) = false) : tryMatch a (c :: rest) = none := by
  rw [wrapSite] at h
  simp only [Bool.or_eq_false_iff] at h
  obtain ⟨⟨h1, h2⟩, h3⟩ := h
  simp only [tryMatch]
  by_cases hc : pyIsSpace c = true
  · rw [if_pos hc]
    apply tryAt_none_of_scheme
    apply urlScheme_none_of_isSome_false
    rw [hc] at h2
    simpa using h2
  · rw [if_neg hc]
    by_cases ha : a = true
    · rw [if_pos ha]
      apply tryAt_none_of_scheme
      apply urlScheme_none_of_isSome_false
      rw [ha] at h1
      simpa using h1
    · rw [if_neg ha]

theorem subScanF_id_of_no_site (l : Line) : ∀ (fuel : Nat) (a : Bool),
    wrapSite a l = false → subScanF fuel a l = l := by
  induction l with
  | nil => intro fuel a _; exact subScanF_nil fuel a
  | cons c rest ih =>
    intro fuel a h
    have hm : tryMatch a (c :: rest) = none := tryMatch_none_of_no_site a c rest h
    have h3 : wrapSite false rest = false := by
      rw [wrapSite] at h
      simp only [Bool.or_eq_false_iff] at h
      exact h.2
    cases fuel with
    | zero => rfl
    | succ f =>
      rw [subScanF_cons, hm]
      rw [ih f false h3]

/-! ### A URL token bounded by whitespace is wrapped -/

theorem urlSub_wraps (body : Line) (hne : body ≠ [])
    (hcls : body.all urlClass = true) :
    urlSub (' ' :: (schemeHttps ++ body) ++ [' '])
      = ' ' :: '<' :: (schemeHttps ++ body) ++ ['>', ' '] := by
  have hb : ∀ c ∈ body, urlClass c = true := List.all_eq_true.mp hcls
  have htw : List.takeWhile urlClass (body ++ [' ']) = body :=
    takeWhile_append_sat body [] hb (by decide)
  have hbe : ¬body.isEmpty = true := by
    simpa [List.isEmpty_iff] using hne
  have hsch : urlScheme ((schemeHttps ++ body) ++ [' '])
      = some (schemeHttps, body ++ [' ']) := by
    unfold urlScheme
    rw [List.append_assoc]
    rw [if_pos (isPrefixOf_append_self schemeHttps (body ++ [' ']))]
    have hlen : schemeHttps.length = 8 := rfl
    rw [← hlen, List.drop_left]
  have hat : tryAt [' '] ((schemeHttps ++ body) ++ [' '])
      = some ([' '] ++ '<' :: (schemeHttps ++ body) ++ ['>', ' '], []) := by
    unfold tryAt
    rw [hsch]
    dsimp only
    rw [htw, if_neg hbe, List.drop_left]
    dsimp only
    rw [if_pos (show pyIsSpace ' ' = true by decide)]
  have hm : tryMatch true (' ' :: ((schemeHttps ++ body) ++ [' ']))
      = some ([' '] ++ '<' :: (schemeHttps ++ body) ++ ['>', ' '], []) := by
    rw [show tryMatch true (' ' :: ((schemeHttps ++ body) ++ [' ']))
          = tryAt [' '] ((schemeHttps ++ body) ++ [' ']) from rfl]
    exact hat
  unfold urlSub
  simp only [List.cons_append]
  rw [show (' ' :: ((schemeHttps ++ body) ++ [' '])).length
        = ((schemeHttps ++ body) ++ [' ']).length + 1 from rfl]
  rw [subScanF_cons, hm]
  dsimp only
  rw [subScanF_nil]
  simp

/-! ### Blankness of classified lines -/

theorem isPrefixOf_single {c : Char} {l : Line} (h : [c].isPrefixOf l = true) :
    ∃ t, l = c :: t := by
  obtain ⟨t, ht⟩ := List.isPrefixOf_iff_prefix.mp h
  exact ⟨t, ht.symm⟩

theorem isBlank_of_isHeading {l : Line} (h : isHeading l = true) :
    isBlank l = false := by
  unfold isHeading at h
  obtain ⟨t, rfl⟩ := isPrefixOf_single h
  rw [isBlank_eq_all, List.all_cons, show pyIsSpace '#' = false from by decide,
    Bool.false_and]

theorem isBlank_of_isListLine {l : Line} (h : isListLine l = true) :
    isBlank l = false := by
  unfold isListLine at h
  obtain ⟨t, ht⟩ := isPrefixOf_single h
  unfold isBlank
  rw [ht]
  rfl

theorem isBlank_of_isFenceLine {l : Line} (h : isFenceLine l = true) :
    isBlank l = false := by
  unfold isFenceLine at h
  obtain ⟨t, ht⟩ := List.isPrefixOf_iff_prefix.mp h
  unfold isBlank
  rw [← ht]
  rfl

/-! ### The claims -/

/-- C1, counterexample: the claim that the multiset of non-blank lines, by
exact line text, is preserved for every input fails, because the bare-URL
branch rewrites the text of a non-blank line: on the one-line document
`"See https://example.com for details.\n"` the output's non-blank lines
differ from the input's. -/
theorem claim1_cex :
    nonBlankLines (fixMarkdown [seeInLine]) ≠ nonBlankLines [seeInLine] := by
  decide

/-- C1, amended: for every input document, the sequence of non-blank lines
of the output equals the sequence of non-blank lines of the input after
applying the bare-URL substitution to each line the loop classifies as a
plain-text URL line (all other lines keep their exact text), in the same
relative order. -/
theorem claim1_amended (lines : List Line) :
    nonBlankLines (fixMarkdown lines) = nonBlankLines (contentMap lines) :=
  nonBlank_fixMarkdown lines

/-- C2: on the five-line document `"Text\n```\ncode\n```\nMore\n"` the code
produces `"Text\n\n```\ncode\n\n```\nMore\n"`: the blank line is inserted
before the closing fence (inside the block) and none after it, because the
single-marker fence line has marker count 1 (odd), so the even-count
"closing" branch never fires.  This contradicts the claimed output
`"Text\n\n```\ncode\n```\n\nMore\n"`. -/
theorem claim2_code_eval :
    fixMarkdown [textLine, tickLine, codeLine, tickLine, moreLine]
      = [textLine, blankLine, tickLine, codeLine, blankLine, tickLine, moreLine] := by
  decide

/-- C3, counterexample: the claim that `"# A\n# B\n"` is left unchanged is
false: the blank-before-heading rule fires for the second heading because
the previous output line (the first heading) is non-blank. -/
theorem claim3_cex :
    fixMarkdown [headALine, headBLine] ≠ [headALine, headBLine] := by
  decide

/-- C3, amended: on `"# A\n# B\n"` the reformatter outputs
`"# A\n\n# B\n"`: exactly one blank line is inserted between the two
adjacent headings by the blank-before-heading rule (the after-heading rule
inserts none because the next line is itself a heading). -/
theorem claim3_amended :
    fixMarkdown [headALine, headBLine] = [headALine, blankLine, headBLine] := by
  decide

/-- C4, counterexample: the claim that every URL token with a whitespace
(or line-start) left boundary and a whitespace, line-end, or `]` terminator
is wrapped fails on `"x https://a.com https://b.com] y\n"`: the claim
predicts both tokens wrapped, but the match of the first token consumes the
separating whitespace and a token immediately followed by `]` cannot match
the final `(\s|$)` group, so the second token is left unwrapped. -/
theorem claim4_cex :
    fixMarkdown [twoUrlInLine] ≠ [twoUrlClaimLine] := by
  decide

/-- C4, amended: the substitution is a single left-to-right pass: a URL
token is wrapped when, at the scan position, a whitespace character (or the
line start) precedes the scheme and the maximal run of non-whitespace,
non-`]` characters after it is followed by whitespace or the line end; the
match consumes the trailing whitespace, so an immediately following URL
whose separator was consumed is not wrapped, and a token immediately
followed by `]` is not wrapped.  In particular
`"See https://example.com for details.\n"` becomes
`"See <https://example.com> for details.\n"`. -/
theorem claim4_amended :
    (∀ (body : Line), body ≠ [] → body.all urlClass = true →
        urlSub (' ' :: (schemeHttps ++ body) ++ [' '])
          = ' ' :: '<' :: (schemeHttps ++ body) ++ ['>', ' '])
      ∧ fixMarkdown [seeInLine] = [seeOutLine]
      ∧ fixMarkdown [twoUrlInLine] = [twoUrlActualLine] := by
  refine ⟨urlSub_wraps, ?_, ?_⟩ <;> decide

/-- Witness for C4: the universal part of the amended claim evaluated at
the concrete URL body `example.com`. -/
theorem claim4_witness :
    exBody ≠ [] ∧ exBody.all urlClass = true ∧
      urlSub (' ' :: (schemeHttps ++ exBody) ++ [' '])
        = ' ' :: '<' :: (schemeHttps ++ exBody) ++ ['>', ' '] :=
  ⟨by decide, by decide, claim4_amended.1 exBody (by decide) (by decide)⟩

/-- C5: for every input document the number of non-blank lines in the
reformatter's output equals the number of non-blank lines in the input:
pass 1 appends exactly one content line per input line (plus blank
separators) and the URL substitution preserves non-blankness, while pass 2
removes only blank lines. -/
theorem claim5_count (lines : List Line) :
    (nonBlankLines (fixMarkdown lines)).length = (nonBlankLines lines).length := by
  rw [nonBlank_fixMarkdown]
  exact length_nonBlank_contentMapGo lines true

/-- C6: the blank-line collapsing pass is idempotent: applying it to its
own output yields that output unchanged, for every sequence of lines. -/
theorem claim6_pass2_idem (ls : List Line) : pass2 (pass2 ls) = pass2 ls :=
  collapseGo_idem ls false

/-- C7: on `"Text\n- item1\n- item2\n"` the reformatter outputs
`"Text\n\n- item1\n- item2\n"`: exactly one blank line before the first
list item of the block and none before the second, whose predecessor is
already a list item. -/
theorem claim7_list_spacing :
    fixMarkdown [textLine, item1Line, item2Line]
      = [textLine, blankLine, item1Line, item2Line] := by
  decide

/-- C8: when the target path does not exist in the file system, the
reformatter fails with the not-found error and produces no written file
system: the write happens only in the success branch, after the read and
both in-memory passes. -/
theorem claim8_missing_file (fs : FileSys) (path : Line) (h : fs path = none) :
    fixMarkdownFile fs path = Except.error () := by
  unfold fixMarkdownFile
  rw [h]

/-- Witness for C8: the empty file system at the empty path. -/
theorem claim8_witness :
    emptyFS [] = none ∧ fixMarkdownFile emptyFS [] = Except.error () :=
  ⟨rfl, claim8_missing_file emptyFS [] rfl⟩

/-- C9: a line in which no occurrence of `http://` or `https://` is at the
start of the line or immediately preceded by a whitespace character is left
textually unchanged by the URL-wrapping substitution. -/
theorem claim9_no_boundary_no_rewrite (l : Line) (h : wrapSite true l = false) :
    urlSub l = l :=
  subScanF_id_of_no_site l l.length true h

/-- Witness for C9: the Markdown link line `"[text](https://example.com)\n"`
has no wrappable boundary (the character before the URL is `(`), and the
substitution leaves it unchanged. -/
theorem claim9_witness :
    wrapSite true linkLine = false ∧ urlSub linkLine = linkLine :=
  ⟨by decide, claim9_no_boundary_no_rewrite linkLine (by decide)⟩

/-- C10: a line the loop classifies as a heading, a list item (not the
first input line), or a fence delimiter — even one containing `http://` or
`https://` — is appended textually unchanged: the only non-blank line the
branch emits is the line itself, so the URL substitution is never applied
to it. -/
theorem claim10_classified_unchanged (first : Bool) (prevOpt : Option Line)
    (line : Line) (nextOpt : Option Line)
    (_hu : hasURL line = true)
    (h : isHeading line = true
       ∨ (isHeading line = false ∧ (isListLine line && !first) = true)
       ∨ (isHeading line = false ∧ (isListLine line && !first) = false
            ∧ isFenceLine line = true)) :
    nonBlankLines (emitFor first prevOpt line nextOpt) = [line] := by
  have hnb : isBlank line = false := by
    rcases h with h | ⟨_, h⟩ | ⟨_, _, h⟩
    · exact isBlank_of_isHeading h
    · exact isBlank_of_isListLine (Bool.and_eq_true .. |>.mp h).1
    · exact isBlank_of_isFenceLine h
  rcases h with h | ⟨hh, hl⟩ | ⟨hh, hl, hf⟩
  · unfold emitFor
    rw [if_pos h]
    rcases nextOpt with _ | nxt <;> split_ifs <;>
      simp [nonBlankLines, List.filter_append, List.filter_cons, hnb,
        isBlank_blankLine, filter_blank_opt]
  · unfold emitFor
    rw [if_neg (by simp [hh]), if_pos hl]
    split_ifs <;>
      simp [nonBlankLines, List.filter_append, List.filter_cons, hnb,
        isBlank_blankLine, filter_blank_opt]
  · unfold emitFor
    rw [if_neg (by simp [hh]), if_neg (by simp [hl]), if_pos hf]
    rcases nextOpt with _ | nxt <;> split_ifs <;>
      simp [nonBlankLines, List.filter_append, List.filter_cons, hnb,
        isBlank_blankLine, filter_blank_opt]

/-- Witness for C10: the heading `"# See https://example.com\n"` contains a
URL, and its branch emits it unchanged as the only non-blank line. -/
theorem claim10_witness :
    hasURL headUrlLine = true ∧ isHeading headUrlLine = true ∧
      nonBlankLines (emitFor false (some textLine) headUrlLine (some textLine))
        = [headUrlLine] :=
  ⟨by decide, by decide,
    claim10_classified_unchanged false (some textLine) headUrlLine
      (some textLine) (by decide) (Or.inl (by decide))⟩
